import Mathlib

/-!
Shallow embedding of the dehedging Binance connector
(src/connectors/binance/helpers.js and the connector module in
src/unnamed/part_000), with theorems about its order-sizing pipeline,
unsupported-market blacklist, order placement guard, and the
WebSocket reconnect logic.

JavaScript numbers are modelled as `JSNum` (a rational or NaN); the
arithmetic the spec reasons about is exact rational arithmetic with
`Int.floor` for `Math.floor`.  Network collaborators (the `usdmClient`
REST calls) are modelled as an environment record of `Except`-valued
responses: `.error` means the awaited call threw.  The module-level
mutable state (`unsupportedMarkets`, `savedConfigSymbols`) is threaded
explicitly through `AdapterState`.
-/

namespace Dehedging

/-- A JavaScript number: either NaN or an exact rational. -/
inductive JSNum where
  | nan : JSNum
  | num : ℚ → JSNum
deriving Repr, DecidableEq

/-- JS `x > 0` (false when NaN). -/
def JSNum.isPos : JSNum → Bool
  | JSNum.nan => false
  | JSNum.num q => 0 < q

/-- JS `a < b` where `a` is a plain number and `b` a JSNum (false when NaN). -/
def JSNum.qLt (a : ℚ) : JSNum → Bool
  | JSNum.nan => false
  | JSNum.num b => a < b

/-- JS `a < b` on two JSNums (false when either is NaN). -/
def JSNum.jLt : JSNum → JSNum → Bool
  | JSNum.num a, JSNum.num b => a < b
  | _, _ => false

/-- JS multiplication of a JSNum by a plain number. -/
def JSNum.mulQ : JSNum → ℚ → JSNum
  | JSNum.nan, _ => JSNum.nan
  | JSNum.num a, q => JSNum.num (a * q)

/-- `parseFloat` applied to a field that may be absent: an absent field
(`undefined`) parses to NaN; a present numeric payload parses exactly. -/
def parseFloatOpt : Option ℚ → JSNum
  | none => JSNum.nan
  | some v => JSNum.num v

/-- JS `a || b` on two optional numeric fields: `a` wins unless it is
absent or falsy (zero). -/
def jsOrOpt : Option ℚ → Option ℚ → Option ℚ
  | some v, b => if v = 0 then b else some v
  | none, b => b

/-- Modelled from the spec: `defaultLeverages` lives in `src/lib/config.js`,
which is not under src/.  The spec says LEVERAGE is read from a
configuration table keyed by exchange, defaulting to 20 if unset; the
source reads it as `defaultLeverages?.binance || 20`, so a missing or
falsy (zero) entry also falls back to 20. -/
def DEFAULT_LEVERAGE (defaultLeveragesBinance : Option ℚ) : ℚ :=
  match defaultLeveragesBinance with
  | some v => if v = 0 then 20 else v
  | none => 20

/-- Binance order side. -/
inductive Side where
  | BUY : Side
  | SELL : Side
deriving Repr, DecidableEq

/-- `getBinanceSide` from src/connectors/binance/helpers.js: closing a
long sells, closing a short buys; opening a long buys, opening a short
sells. -/
def getBinanceSide (isLong isClosed : Bool) : Side :=
  if isClosed then
    if isLong then Side.SELL else Side.BUY
  else
    if isLong then Side.BUY else Side.SELL

/-- `MIN_COLLATERAL` from helpers.js. -/
def MIN_COLLATERAL : ℚ := 50

/-- `calculateSizeInMarketToken` from src/connectors/binance/helpers.js.
`leverage` is the module constant `DEFAULT_LEVERAGE` (passed explicitly
because its config table is outside src/).  Mirrors the source checks in
order: invalid collateral (`!numCollateral || isNaN || ≤ 0`), invalid
price, collateral below `MIN_COLLATERAL`, then
`Math.floor(collateral*leverage/price * 10^precision) / 10^precision`. -/
def calculateSizeInMarketToken (leverage : ℚ) (collateral price : JSNum)
    (precision : ℕ) : ℚ :=
  match collateral with
  | JSNum.nan => 0
  | JSNum.num numCollateral =>
    if numCollateral ≤ 0 then 0
    else
      match price with
      | JSNum.nan => 0
      | JSNum.num numPrice =>
        if numPrice ≤ 0 then 0
        else if numCollateral < MIN_COLLATERAL then 0
        else
          let totalSize := numCollateral * leverage
          let quantity := totalSize / numPrice
          let multiplier : ℚ := 10 ^ precision
          ((Int.floor (quantity * multiplier) : ℤ) : ℚ) / multiplier

/-- `convertMarketToBinanceMarket` from helpers.js.  The static table
`mapBinanceMarkets` (src/connectors/binance/marketsEnum.js) is not under
src/, so the lookup table is a parameter; a missing or falsy (empty
string) entry yields null. -/
def convertMarketToBinanceMarket (mapBinanceMarkets : String → Option String)
    (market : String) : Option String :=
  match mapBinanceMarkets market with
  | some s => if s = "" then none else some s
  | none => none

/-- One entry of `exchangeInfo.symbols[i].filters`.  Numeric payloads are
`Option ℚ`: `none` models an absent field (whose `parseFloat` is NaN). -/
structure SymbolFilter where
  filterType : String
  minQty : Option ℚ := none
  notional : Option ℚ := none
  minNotional : Option ℚ := none
deriving Repr, DecidableEq

/-- One entry of `exchangeInfo.symbols`. -/
structure SymbolInfo where
  symbol : String
  quantityPrecision : ℕ
  filters : Option (List SymbolFilter) := none
deriving Repr, DecidableEq

/-- One entry of the `getFuturesSymbolConfig` response. -/
structure SymbolCfg where
  leverage : ℚ
  marginType : String
deriving Repr, DecidableEq

/-- The pipeline's output record `{ side, symbol, quantity }`. -/
structure OrderDescriptor where
  side : Side
  symbol : String
  quantity : ℚ
deriving Repr, DecidableEq

/-- A `savedConfigSymbols` entry: `{ leverage?: boolean, marginType?: boolean }`. -/
structure SavedCfg where
  leverage : Option Bool := none
  marginType : Option Bool := none
deriving Repr, DecidableEq

/-- JS object spread `{...value, ...objValue}`: fields present in
`objValue` override those of `value`. -/
def SavedCfg.merge (value objValue : SavedCfg) : SavedCfg :=
  { leverage := objValue.leverage.orElse fun _ => value.leverage
    marginType := objValue.marginType.orElse fun _ => value.marginType }

/-- The connector module's process-wide mutable state: the
`unsupportedMarkets` set and the `savedConfigSymbols` map. -/
structure AdapterState where
  unsupportedMarkets : List String
  savedConfigSymbols : List (String × SavedCfg)
deriving Repr, DecidableEq

/-- `if (!unsupportedMarkets.has(market)) unsupportedMarkets.add(market)`. -/
def addUnsupported (market : String) (st : AdapterState) : AdapterState :=
  if market ∈ st.unsupportedMarkets then st
  else { st with unsupportedMarkets := market :: st.unsupportedMarkets }

/-- `saveConfig` from the connector module: merge into an existing map
entry, or insert a fresh one. -/
def saveConfig (symbol : String) (objValue : SavedCfg) (st : AdapterState) :
    AdapterState :=
  match st.savedConfigSymbols.lookup symbol with
  | some value =>
    { st with savedConfigSymbols :=
        (symbol, value.merge objValue) ::
          st.savedConfigSymbols.filter (fun e => e.fst ≠ symbol) }
  | none =>
    { st with savedConfigSymbols := (symbol, objValue) :: st.savedConfigSymbols }

/-- The network collaborators awaited by `prepareDataToPlace`, as the
responses one invocation would observe; `.error` means the awaited call
threw an exception. -/
structure PrepareEnv where
  getExchangeInfo : Except Unit (List SymbolInfo)
  getMarkPrice : Except Unit JSNum
  getFuturesSymbolConfig : Except Unit (List SymbolCfg)
  setLeverage : Except Unit Unit
  setMarginType : Except Unit Unit

/-- `filters = marketInfo.filters || []`. -/
def filtersOf (mi : SymbolInfo) : List SymbolFilter := mi.filters.getD []

/-- `minQty = lotSizeFilter ? parseFloat(lotSizeFilter.minQty) : 0`. -/
def extractMinQty (mi : SymbolInfo) : JSNum :=
  match (filtersOf mi).find? (fun f => f.filterType == "LOT_SIZE") with
  | none => JSNum.num 0
  | some f => parseFloatOpt f.minQty

/-- `minNotional = minNotionalFilter ?
parseFloat(minNotionalFilter.notional || minNotionalFilter.minNotional) : 0`. -/
def extractMinNotional (mi : SymbolInfo) : JSNum :=
  match (filtersOf mi).find? (fun f => f.filterType == "MIN_NOTIONAL") with
  | none => JSNum.num 0
  | some f => parseFloatOpt (jsOrOpt f.notional f.minNotional)

/-- Steps 9–11 of the pipeline: fetch the symbol's leverage/margin config
and correct drift.  `symbolConfig[0]` on an empty array is `undefined`,
so the destructuring throws (modelled as `.error`).  Returns the thrown
or ok outcome, the state after any `saveConfig` writes, and the number of
network calls made inside this stage. -/
def configSteps (env : PrepareEnv) (lev : ℚ) (symbol : String)
    (st : AdapterState) : Except Unit Unit × AdapterState × ℕ :=
  match env.getFuturesSymbolConfig with
  | Except.error e => (Except.error e, st, 1)
  | Except.ok symbolConfig =>
    match symbolConfig.head? with
    | none => (Except.error (), st, 1)
    | some cfg0 =>
      let afterLev :=
        if cfg0.leverage ≠ lev then
          match env.setLeverage with
          | Except.error e => (Except.error e, st, 2)
          | Except.ok _ => (Except.ok (), saveConfig symbol { leverage := some true } st, 2)
        else (Except.ok (), st, 1)
      match afterLev with
      | (Except.error e, st1, n1) => (Except.error e, st1, n1)
      | (Except.ok _, st1, n1) =>
        if cfg0.marginType ≠ "ISOLATED" then
          match env.setMarginType with
          | Except.error e => (Except.error e, st1, n1 + 1)
          | Except.ok _ =>
            (Except.ok (), saveConfig symbol { marginType := some true } st1, n1 + 1)
        else (Except.ok (), st1, n1)

/-- The `try` block of `prepareDataToPlace` (source steps 3–12), entered
after the blacklist short-circuit and symbol resolution.  Returns the
result (`.error` = an exception escaped to the catch), the state at exit,
and the number of network calls made. -/
def prepareTry (env : PrepareEnv) (lev : ℚ) (isLong isClosed : Bool)
    (size : ℚ) (symbol market : String) (st : AdapterState) :
    Except Unit (Option OrderDescriptor) × AdapterState × ℕ :=
  match env.getExchangeInfo with
  | Except.error e => (Except.error e, st, 1)
  | Except.ok exchangeInfo =>
    match exchangeInfo.find? (fun s => s.symbol == symbol) with
    | none => (Except.ok none, addUnsupported market st, 1)
    | some marketInfo =>
      let minQty := extractMinQty marketInfo
      let minNotional := extractMinNotional marketInfo
      match env.getMarkPrice with
      | Except.error e => (Except.error e, st, 2)
      | Except.ok binancePrice =>
        let side := getBinanceSide isLong isClosed
        let collateral := size / lev
        let precision := marketInfo.quantityPrecision
        let quantity :=
          calculateSizeInMarketToken lev (JSNum.num collateral) binancePrice precision
        if quantity ≤ 0 then (Except.ok none, st, 2)
        else if minQty.isPos ∧ JSNum.qLt quantity minQty then (Except.ok none, st, 2)
        else
          let notionalValue := binancePrice.mulQ quantity
          if minNotional.isPos ∧ JSNum.jLt notionalValue minNotional then
            (Except.ok none, st, 2)
          else
            match configSteps env lev symbol st with
            | (Except.error e, st1, n1) => (Except.error e, st1, 2 + n1)
            | (Except.ok _, st1, n1) =>
              (Except.ok (some { side := side, symbol := symbol, quantity := quantity }),
                st1, 2 + n1)

/-- The pipeline's outcome: the returned descriptor (or null), the
module state after the call, and how many network collaborator calls
were awaited. -/
structure PrepareOutcome where
  result : Option OrderDescriptor
  state : AdapterState
  networkCalls : ℕ
deriving Repr, DecidableEq

/-- `prepareDataToPlace` from the connector module: blacklist
short-circuit, symbol resolution, then the `try` block with its catch
handler (log, blacklist the market, return null). -/
def prepareDataToPlace (env : PrepareEnv) (cfg : Option ℚ)
    (mapBinanceMarkets : String → Option String)
    (isLong : Bool) (market : String) (size : ℚ) (isClosed : Bool)
    (st : AdapterState) : PrepareOutcome :=
  if market ∈ st.unsupportedMarkets then ⟨none, st, 0⟩
  else
    match convertMarketToBinanceMarket mapBinanceMarkets market with
    | none => ⟨none, addUnsupported market st, 0⟩
    | some symbol =>
      match prepareTry env (DEFAULT_LEVERAGE cfg) isLong isClosed size symbol market st with
      | (Except.ok r, st1, n) => ⟨r, st1, n⟩
      | (Except.error _, st1, n) => ⟨none, addUnsupported market st1, n⟩

/-- Constants of the WebSocket connection manager. -/
def WS_RECONNECT_DELAY : ℕ := 1000

/-- Maximum consecutive reconnect attempts. -/
def WS_MAX_RECONNECT_ATTEMPTS : ℕ := 5

/-- The part of `BinanceWebSocket` state that `reconnect()` reads and
writes: the attempt counter. -/
structure WSState where
  reconnectAttempts : ℕ
deriving Repr, DecidableEq

/-- `BinanceWebSocket.reconnect()`: give up (state unchanged, nothing
scheduled) once the counter reached the maximum; otherwise increment the
counter and schedule `connect()` after
`WS_RECONNECT_DELAY * reconnectAttempts` ms (the incremented value).
The second component is the scheduled delay, `none` when giving up. -/
def reconnect (s : WSState) : WSState × Option ℕ :=
  if WS_MAX_RECONNECT_ATTEMPTS ≤ s.reconnectAttempts then (s, none)
  else
    let attempts := s.reconnectAttempts + 1
    (⟨attempts⟩, some (WS_RECONNECT_DELAY * attempts))

/-- The `submitNewOrder` response fields the module reads. -/
structure OrderResponse where
  orderId : ℕ
  status : String
  executedQty : ℚ
  avgPrice : ℚ
deriving Repr, DecidableEq

/-- `placeNewOrder` from the connector module: the
`!quantity || quantity <= 0` guard returns undefined (here `.ok none`)
without submitting; otherwise the order is submitted, and a submission
error is re-thrown after logging.  The Bool records whether
`submitNewOrder` was invoked. -/
def placeNewOrder (quantity : Option JSNum)
    (submitNewOrder : Except Unit OrderResponse) :
    Except Unit (Option OrderResponse) × Bool :=
  match quantity with
  | none => (Except.ok none, false)
  | some JSNum.nan => (Except.ok none, false)
  | some (JSNum.num q) =>
    if q ≤ 0 then (Except.ok none, false)
    else
      match submitNewOrder with
      | Except.ok response => (Except.ok (some response), true)
      | Except.error e => (Except.error e, true)

/-! Concrete collaborators used by the witnesses. -/

/-- A market map sending "BTC" to "BTCUSDT". -/
def mapBTC : String → Option String :=
  fun m => if m == "BTC" then some "BTCUSDT" else none

/-- An environment in which every collaborator call succeeds and the
account is already configured at leverage 20, ISOLATED margin. -/
def envAllOk : PrepareEnv :=
  { getExchangeInfo :=
      Except.ok [{ symbol := "BTCUSDT", quantityPrecision := 4, filters := none }]
    getMarkPrice := Except.ok (JSNum.num 100000)
    getFuturesSymbolConfig := Except.ok [{ leverage := 20, marginType := "ISOLATED" }]
    setLeverage := Except.ok ()
    setMarginType := Except.ok () }

/-- `envAllOk` with the metadata fetch throwing. -/
def envInfoThrows : PrepareEnv :=
  { envAllOk with getExchangeInfo := Except.error () }

/-- Adding a market puts it in the set. -/
theorem mem_addUnsupported (market : String) (st : AdapterState) :
    market ∈ (addUnsupported market st).unsupportedMarkets := by
  unfold addUnsupported
  split
  · assumption
  · exact List.mem_cons_self _ _

/-- A positive computed quantity forces the price input to be a positive
number: all other inputs are rejected to 0 by the guards. -/
theorem calculateSize_pos_price (lev : ℚ) (c price : JSNum) (n : ℕ)
    (h : 0 < calculateSizeInMarketToken lev c price n) :
    ∃ p, price = JSNum.num p ∧ 0 < p := by
  cases c with
  | nan => simp [calculateSizeInMarketToken] at h
  | num cq =>
    cases price with
    | nan => simp [calculateSizeInMarketToken] at h
    | num p =>
      refine ⟨p, rfl, ?_⟩
      by_contra hp
      push_neg at hp
      simp [calculateSizeInMarketToken, hp] at h

end Dehedging

namespace Dehedging

/-- C9: `getBinanceSide` truth table: (long, open) ↦ BUY, (long, close) ↦
SELL, (short, open) ↦ SELL, (short, close) ↦ BUY; the function is total on
the four Boolean combinations. -/
theorem getBinanceSide_table :
    getBinanceSide true false = Side.BUY ∧
    getBinanceSide true true = Side.SELL ∧
    getBinanceSide false false = Side.SELL ∧
    getBinanceSide false true = Side.BUY := by
  refine ⟨rfl, rfl, rfl, rfl⟩

/-- C5: `calculateSizeInMarketToken` returns 0 whenever the collateral is
numeric but below 50 (any price, any precision), and whenever collateral
or price is non-numeric (NaN) or ≤ 0. -/
theorem calculateSizeInMarketToken_rejects (leverage : ℚ) (collateral price : JSNum)
    (precision : ℕ)
    (h : (∃ c, collateral = JSNum.num c ∧ c < 50) ∨
         collateral = JSNum.nan ∨ price = JSNum.nan ∨
         (∃ p, price = JSNum.num p ∧ p ≤ 0)) :
    calculateSizeInMarketToken leverage collateral price precision = 0 := by
  unfold calculateSizeInMarketToken
  rcases h with ⟨c, hc, hlt⟩ | hnanC | hnanP | ⟨p, hp, hple⟩
  · subst hc
    rcases le_or_lt c 0 with h0 | h0
    · simp [h0]
    · simp only [not_le.mpr h0, if_false]
      cases price with
      | nan => rfl
      | num p =>
        rcases le_or_lt p 0 with hp0 | hp0
        · simp [hp0]
        · simp [not_le.mpr hp0, MIN_COLLATERAL, hlt]
  · subst hnanC; rfl
  · subst hnanP
    cases collateral with
    | nan => rfl
    | num c =>
      by_cases h0 : c ≤ 0 <;> simp [h0]
  · subst hp
    cases collateral with
    | nan => rfl
    | num c =>
      by_cases h0 : c ≤ 0
      · simp [h0]
      · simp [h0, hple]

/-- C5 witness: a concrete rejected input, collateral 49 < 50. -/
theorem calculateSizeInMarketToken_rejects_witness :
    calculateSizeInMarketToken 20 (JSNum.num 49) (JSNum.num 100) 3 = 0 :=
  calculateSizeInMarketToken_rejects 20 (JSNum.num 49) (JSNum.num 100) 3
    (Or.inl ⟨49, rfl, by norm_num⟩)

/-- C3: for numeric collateral ≥ 50, numeric price > 0 and any precision,
`calculateSizeInMarketToken` with leverage `DEFAULT_LEVERAGE cfg` returns
exactly `floor(collateral·L/price · 10^precision) / 10^precision`
(truncation, not rounding), the result times `10^precision` is an
integer, and `DEFAULT_LEVERAGE` falls back to 20 when the config table
has no binance entry. -/
theorem calculateSizeInMarketToken_formula (cfg : Option ℚ) (c p : ℚ)
    (precision : ℕ) (hc : 50 ≤ c) (hp : 0 < p) :
    calculateSizeInMarketToken (DEFAULT_LEVERAGE cfg) (JSNum.num c) (JSNum.num p)
        precision =
      ((Int.floor (c * DEFAULT_LEVERAGE cfg / p * 10 ^ precision) : ℤ) : ℚ) /
        10 ^ precision ∧
    (∃ k : ℤ, calculateSizeInMarketToken (DEFAULT_LEVERAGE cfg) (JSNum.num c)
        (JSNum.num p) precision * 10 ^ precision = (k : ℚ)) ∧
    DEFAULT_LEVERAGE none = 20 := by
  have hc0 : ¬ c ≤ 0 := not_le.mpr (lt_of_lt_of_le (by norm_num) hc)
  have hp0 : ¬ p ≤ 0 := not_le.mpr hp
  have hcm : ¬ c < MIN_COLLATERAL := not_lt.mpr hc
  have hmul : (10 : ℚ) ^ precision ≠ 0 := by positivity
  constructor
  · unfold calculateSizeInMarketToken
    simp [hc0, hp0, hcm]
  · constructor
    · refine ⟨Int.floor (c * DEFAULT_LEVERAGE cfg / p * 10 ^ precision), ?_⟩
      unfold calculateSizeInMarketToken
      simp only [hc0, if_false, hp0, hcm]
      field_simp
    · rfl

/-- C3 witness: collateral 50, price 1000, precision 2, no config entry:
the theorem's hypotheses hold and the formula gives 100/100 = 1. -/
theorem calculateSizeInMarketToken_formula_witness :
    calculateSizeInMarketToken (DEFAULT_LEVERAGE none) (JSNum.num 50)
        (JSNum.num 1000) 2 =
      ((Int.floor ((50 : ℚ) * DEFAULT_LEVERAGE none / 1000 * 10 ^ 2) : ℤ) : ℚ) /
        10 ^ 2 ∧
    (∃ k : ℤ, calculateSizeInMarketToken (DEFAULT_LEVERAGE none) (JSNum.num 50)
        (JSNum.num 1000) 2 * 10 ^ 2 = (k : ℚ)) ∧
    DEFAULT_LEVERAGE none = 20 :=
  calculateSizeInMarketToken_formula none 50 1000 2 (by norm_num) (by norm_num)

/-- C4 counterexample: at collateral 0.5, price 100000, leverage 20
(no config entry), precision 4, the function returns 0, not 0.0001 as
the claim states: 0.5 is below the 50-unit collateral minimum. -/
theorem calculateSizeInMarketToken_half_collateral_ne :
    calculateSizeInMarketToken (DEFAULT_LEVERAGE none) (JSNum.num (1 / 2))
        (JSNum.num 100000) 4 ≠ (1 : ℚ) / 10000 := by
  unfold calculateSizeInMarketToken MIN_COLLATERAL
  norm_num

/-- C4 amended: at collateral 0.5, price 100000, leverage 20, precision 4,
the function returns 0 (collateral 0.5 is below the 50-unit minimum); the
unguarded reference formula 0.5·20/100000 would give 0.0001. -/
theorem calculateSizeInMarketToken_half_collateral :
    calculateSizeInMarketToken (DEFAULT_LEVERAGE none) (JSNum.num (1 / 2))
        (JSNum.num 100000) 4 = 0 ∧
    (1 / 2 : ℚ) * 20 / 100000 = 1 / 10000 := by
  constructor
  · unfold calculateSizeInMarketToken MIN_COLLATERAL
    norm_num
  · norm_num

/-- C6: a market already in `unsupportedMarkets` short-circuits
`prepareDataToPlace` to null with zero network collaborator calls and an
unchanged state, until the 24h timer clears the set. -/
theorem prepare_blacklist_short_circuit (env : PrepareEnv) (cfg : Option ℚ)
    (mapB : String → Option String) (isLong : Bool) (market : String)
    (size : ℚ) (isClosed : Bool) (st : AdapterState)
    (h : market ∈ st.unsupportedMarkets) :
    prepareDataToPlace env cfg mapB isLong market size isClosed st =
      ⟨none, st, 0⟩ := by
  unfold prepareDataToPlace
  rw [if_pos h]

/-- C6 witness: "BTC" is blacklisted, so the call returns null, keeps the
state, and makes no network call even with every collaborator available. -/
theorem prepare_blacklist_short_circuit_witness :
    prepareDataToPlace envAllOk none mapBTC true "BTC" 1000 false
        ⟨["BTC"], []⟩ = ⟨none, ⟨["BTC"], []⟩, 0⟩ :=
  prepare_blacklist_short_circuit envAllOk none mapBTC true "BTC" 1000 false
    ⟨["BTC"], []⟩ (List.mem_cons_self _ _)

/-- C1: `prepareDataToPlace` is a total function into
`Option OrderDescriptor` (it never raises), and whenever the try block
(metadata/price/config steps) throws, the exception is caught, the market
is added to `unsupportedMarkets`, and null is returned. -/
theorem prepare_catches_and_blacklists (env : PrepareEnv) (cfg : Option ℚ)
    (mapB : String → Option String) (isLong : Bool) (market : String)
    (size : ℚ) (isClosed : Bool) (st st1 : AdapterState) (symbol : String)
    (e : Unit) (n : ℕ)
    (hmem : market ∉ st.unsupportedMarkets)
    (hsym : convertMarketToBinanceMarket mapB market = some symbol)
    (herr : prepareTry env (DEFAULT_LEVERAGE cfg) isLong isClosed size symbol
        market st = (Except.error e, st1, n)) :
    (prepareDataToPlace env cfg mapB isLong market size isClosed st).result =
      none ∧
    market ∈ (prepareDataToPlace env cfg mapB isLong market size isClosed
      st).state.unsupportedMarkets := by
  have hd : prepareDataToPlace env cfg mapB isLong market size isClosed st =
      ⟨none, addUnsupported market st1, n⟩ := by
    unfold prepareDataToPlace
    rw [if_neg hmem, hsym]
    simp only [herr]
  rw [hd]
  exact ⟨rfl, mem_addUnsupported market st1⟩

/-- C1 witness: the metadata fetch throws for "BTC"; the call resolves to
null and "BTC" lands in the unsupported set. -/
theorem prepare_catches_and_blacklists_witness :
    (prepareDataToPlace envInfoThrows none mapBTC true "BTC" 1000 false
        ⟨[], []⟩).result = none ∧
    "BTC" ∈ (prepareDataToPlace envInfoThrows none mapBTC true "BTC" 1000 false
        ⟨[], []⟩).state.unsupportedMarkets :=
  prepare_catches_and_blacklists envInfoThrows none mapBTC true "BTC" 1000
    false ⟨[], []⟩ ⟨[], []⟩ "BTCUSDT" () 1 (by simp) rfl rfl

/-- C7: a sizing rejection (computed quantity ≤ 0, quantity below a
positive minQty, or notional below a positive minNotional) returns null
with the module state — in particular `unsupportedMarkets` — unchanged. -/
theorem prepare_sizing_rejection_no_blacklist (env : PrepareEnv)
    (cfg : Option ℚ) (mapB : String → Option String) (isLong : Bool)
    (market : String) (size : ℚ) (isClosed : Bool) (st : AdapterState)
    (symbol : String) (infos : List SymbolInfo) (mi : SymbolInfo)
    (bp : JSNum) (q : ℚ)
    (hmem : market ∉ st.unsupportedMarkets)
    (hsym : convertMarketToBinanceMarket mapB market = some symbol)
    (hinfo : env.getExchangeInfo = Except.ok infos)
    (hfind : infos.find? (fun s => s.symbol == symbol) = some mi)
    (hprice : env.getMarkPrice = Except.ok bp)
    (hq : q = calculateSizeInMarketToken (DEFAULT_LEVERAGE cfg)
        (JSNum.num (size / DEFAULT_LEVERAGE cfg)) bp mi.quantityPrecision)
    (hrej : q ≤ 0 ∨
      ((extractMinQty mi).isPos ∧ JSNum.qLt q (extractMinQty mi)) ∨
      ((extractMinNotional mi).isPos ∧
        JSNum.jLt (bp.mulQ q) (extractMinNotional mi))) :
    prepareDataToPlace env cfg mapB isLong market size isClosed st =
      ⟨none, st, 2⟩ := by
  unfold prepareDataToPlace
  rw [if_neg hmem, hsym]
  unfold prepareTry
  simp only [hinfo, hfind, hprice, ← hq]
  by_cases hq0 : q ≤ 0
  · rw [if_pos hq0]
  · rw [if_neg hq0]
    by_cases h2 : (extractMinQty mi).isPos ∧ JSNum.qLt q (extractMinQty mi)
    · rw [if_pos h2]
    · rw [if_neg h2]
      have h3 : (extractMinNotional mi).isPos ∧
          JSNum.jLt (bp.mulQ q) (extractMinNotional mi) := by
        rcases hrej with h | h | h
        · exact absurd h hq0
        · exact absurd h h2
        · exact h
      rw [if_pos h3]

/-- C7 witness: size 100 gives collateral 5 < 50, so the quantity is 0 and
the intent is rejected with the state untouched (and only the two fetch
calls made). -/
theorem prepare_sizing_rejection_no_blacklist_witness :
    prepareDataToPlace envAllOk none mapBTC true "BTC" 100 false ⟨[], []⟩ =
      ⟨none, ⟨[], []⟩, 2⟩ :=
  prepare_sizing_rejection_no_blacklist envAllOk none mapBTC true "BTC" 100
    false ⟨[], []⟩ "BTCUSDT"
    [{ symbol := "BTCUSDT", quantityPrecision := 4, filters := none }]
    { symbol := "BTCUSDT", quantityPrecision := 4, filters := none }
    (JSNum.num 100000) 0
    (by simp) rfl rfl rfl rfl
    (by norm_num [calculateSizeInMarketToken, DEFAULT_LEVERAGE, MIN_COLLATERAL])
    (Or.inl (by norm_num))

/-- C2: a non-null `OrderDescriptor` has strictly positive quantity, and
against the symbol metadata used at computation time (minQty and
minNotional extracted from the filter set, zero when the filter is
absent): quantity ≥ minQty and quantity · mark price ≥ minNotional,
whenever those extracted bounds are numeric. -/
theorem prepare_success_bounds (env : PrepareEnv) (cfg : Option ℚ)
    (mapB : String → Option String) (isLong : Bool) (market : String)
    (size : ℚ) (isClosed : Bool) (st : AdapterState) (d : OrderDescriptor)
    (h : (prepareDataToPlace env cfg mapB isLong market size isClosed
        st).result = some d) :
    0 < d.quantity ∧
    (∀ symbol infos mi,
      convertMarketToBinanceMarket mapB market = some symbol →
      env.getExchangeInfo = Except.ok infos →
      infos.find? (fun s => s.symbol == symbol) = some mi →
      ((∀ m, extractMinQty mi = JSNum.num m → m ≤ d.quantity) ∧
       (∀ p m, env.getMarkPrice = Except.ok (JSNum.num p) →
          extractMinNotional mi = JSNum.num m → m ≤ d.quantity * p))) := by
  unfold prepareDataToPlace at h
  by_cases hmem : market ∈ st.unsupportedMarkets
  · rw [if_pos hmem] at h
    exact absurd h (by simp)
  · rw [if_neg hmem] at h
    cases hsym0 : convertMarketToBinanceMarket mapB market with
    | none => simp only [hsym0] at h; exact absurd h (by simp)
    | some symbol0 =>
      rcases htry : prepareTry env (DEFAULT_LEVERAGE cfg) isLong isClosed size
          symbol0 market st with ⟨res, st1, n⟩
      simp only [hsym0, htry] at h
      cases res with
      | error e => exact absurd h (by simp)
      | ok r =>
        have hres : r = some d := h
        subst hres
        unfold prepareTry at htry
        cases hinfo0 : env.getExchangeInfo with
        | error e => simp [hinfo0] at htry
        | ok infos0 =>
          simp only [hinfo0] at htry
          cases hfind0 : infos0.find? (fun s => s.symbol == symbol0) with
          | none => simp [hfind0] at htry
          | some mi0 =>
            simp only [hfind0] at htry
            cases hprice0 : env.getMarkPrice with
            | error e => simp [hprice0] at htry
            | ok bp =>
              simp only [hprice0] at htry
              by_cases hq0 : calculateSizeInMarketToken (DEFAULT_LEVERAGE cfg)
                  (JSNum.num (size / DEFAULT_LEVERAGE cfg)) bp
                  mi0.quantityPrecision ≤ 0
              · rw [if_pos hq0] at htry
                simp at htry
              · rw [if_neg hq0] at htry
                by_cases h2 : (extractMinQty mi0).isPos ∧
                    JSNum.qLt (calculateSizeInMarketToken (DEFAULT_LEVERAGE cfg)
                      (JSNum.num (size / DEFAULT_LEVERAGE cfg)) bp
                      mi0.quantityPrecision) (extractMinQty mi0)
                · rw [if_pos h2] at htry
                  simp at htry
                · rw [if_neg h2] at htry
                  by_cases h3 : (extractMinNotional mi0).isPos ∧
                      JSNum.jLt (bp.mulQ (calculateSizeInMarketToken
                        (DEFAULT_LEVERAGE cfg)
                        (JSNum.num (size / DEFAULT_LEVERAGE cfg)) bp
                        mi0.quantityPrecision)) (extractMinNotional mi0)
                  · rw [if_pos h3] at htry
                    simp at htry
                  · rw [if_neg h3] at htry
                    rcases hcs : configSteps env (DEFAULT_LEVERAGE cfg) symbol0
                        st with ⟨cres, st2, n2⟩
                    simp only [hcs] at htry
                    cases cres with
                    | error e => simp at htry
                    | ok u =>
                      simp only [Prod.mk.injEq, Except.ok.injEq,
                        Option.some.injEq] at htry
                      obtain ⟨hd, -, -⟩ := htry
                      have hdq : calculateSizeInMarketToken
                          (DEFAULT_LEVERAGE cfg)
                          (JSNum.num (size / DEFAULT_LEVERAGE cfg)) bp
                          mi0.quantityPrecision = d.quantity :=
                        congrArg OrderDescriptor.quantity hd
                      rw [← hdq]
                      have hqpos : 0 < calculateSizeInMarketToken
                          (DEFAULT_LEVERAGE cfg)
                          (JSNum.num (size / DEFAULT_LEVERAGE cfg)) bp
                          mi0.quantityPrecision := not_le.mp hq0
                      refine ⟨hqpos, ?_⟩
                      intro symbol infos mi hs hi hf
                      have hsy : symbol0 = symbol := Option.some.inj hs
                      subst hsy
                      have hin : infos0 = infos := Except.ok.inj hi
                      subst hin
                      rw [hfind0] at hf
                      have hmi : mi0 = mi := Option.some.inj hf
                      subst hmi
                      constructor
                      · intro m hm
                        rw [hm] at h2
                        simp only [JSNum.isPos, JSNum.qLt, decide_eq_true_eq,
                          not_and] at h2
                        by_cases hmpos : 0 < m
                        · exact not_lt.mp (h2 (by simpa using hmpos))
                        · exact le_trans (not_lt.mp hmpos) (le_of_lt hqpos)
                      · intro p m hp hm
                        have hbp : bp = JSNum.num p := Except.ok.inj hp
                        subst hbp
                        rw [hm] at h3
                        simp only [JSNum.mulQ, JSNum.isPos, JSNum.jLt,
                          decide_eq_true_eq, not_and] at h3
                        obtain ⟨p0, hp0eq, hp0⟩ := calculateSize_pos_price
                          (DEFAULT_LEVERAGE cfg)
                          (JSNum.num (size / DEFAULT_LEVERAGE cfg))
                          (JSNum.num p) mi0.quantityPrecision hqpos
                        have hpp : p = p0 := JSNum.num.inj hp0eq
                        by_cases hmpos : 0 < m
                        · have := h3 (by simpa using hmpos)
                          have hle : m ≤ p * calculateSizeInMarketToken
                              (DEFAULT_LEVERAGE cfg)
                              (JSNum.num (size / DEFAULT_LEVERAGE cfg))
                              (JSNum.num p) mi0.quantityPrecision :=
                            not_lt.mp (by simpa using this)
                          calc m ≤ _ := hle
                            _ = _ := mul_comm _ _
                        · have hqp : 0 < calculateSizeInMarketToken
                              (DEFAULT_LEVERAGE cfg)
                              (JSNum.num (size / DEFAULT_LEVERAGE cfg))
                              (JSNum.num p) mi0.quantityPrecision * p :=
                            mul_pos hqpos (hpp ▸ hp0)
                          exact le_trans (not_lt.mp hmpos) (le_of_lt hqp)

/-- C2 witness: with size 1000 against the all-ok environment the pipeline
returns quantity 1/100, which satisfies every bound. -/
theorem prepare_success_bounds_witness :
    0 < (OrderDescriptor.mk Side.BUY "BTCUSDT" (1 / 100)).quantity ∧
    (∀ symbol infos mi,
      convertMarketToBinanceMarket mapBTC "BTC" = some symbol →
      envAllOk.getExchangeInfo = Except.ok infos →
      infos.find? (fun s => s.symbol == symbol) = some mi →
      ((∀ m, extractMinQty mi = JSNum.num m →
          m ≤ (OrderDescriptor.mk Side.BUY "BTCUSDT" (1 / 100)).quantity) ∧
       (∀ p m, envAllOk.getMarkPrice = Except.ok (JSNum.num p) →
          extractMinNotional mi = JSNum.num m →
          m ≤ (OrderDescriptor.mk Side.BUY "BTCUSDT" (1 / 100)).quantity * p))) :=
  prepare_success_bounds envAllOk none mapBTC true "BTC" 1000 false ⟨[], []⟩
    (OrderDescriptor.mk Side.BUY "BTCUSDT" (1 / 100))
    (by
      have hQ : calculateSizeInMarketToken 20 (JSNum.num 50)
          (JSNum.num 100000) 4 = 1 / 100 := by
        norm_num [calculateSizeInMarketToken, MIN_COLLATERAL]
      have h50 : (1000 : ℚ) / 20 = 50 := by norm_num
      have hps : (((100 : ℚ)⁻¹ ≤ 0)) = False := by norm_num
      simp [h50, hps, prepareDataToPlace, prepareTry, configSteps, envAllOk, mapBTC,
        convertMarketToBinanceMarket, extractMinQty, extractMinNotional,
        filtersOf, DEFAULT_LEVERAGE, JSNum.isPos, JSNum.qLt, JSNum.jLt,
        JSNum.mulQ, getBinanceSide, hQ, parseFloatOpt])

/-- C8: `reconnect()` with the counter at or above the maximum of 5 is a
no-op beyond logging (state kept, nothing scheduled); below the maximum
it increments the counter and schedules `connect()` after
`WS_RECONNECT_DELAY · attemptNumber` ms, so attempts 1, 2, 3 are
scheduled at 1000, 2000, 3000 ms (linear backoff). -/
theorem reconnect_spec (s : WSState) :
    (WS_MAX_RECONNECT_ATTEMPTS ≤ s.reconnectAttempts →
      reconnect s = (s, none)) ∧
    (s.reconnectAttempts < WS_MAX_RECONNECT_ATTEMPTS →
      reconnect s = (⟨s.reconnectAttempts + 1⟩,
        some (WS_RECONNECT_DELAY * (s.reconnectAttempts + 1)))) ∧
    reconnect ⟨0⟩ = (⟨1⟩, some 1000) ∧
    reconnect ⟨1⟩ = (⟨2⟩, some 2000) ∧
    reconnect ⟨2⟩ = (⟨3⟩, some 3000) := by
  refine ⟨?_, ?_, by decide, by decide, by decide⟩
  · intro h
    unfold reconnect
    rw [if_pos h]
  · intro h
    unfold reconnect
    rw [if_neg (not_le.mpr h)]

/-- C8 witness: at the maximum (5 attempts) reconnect keeps the state and
schedules nothing; at 0 attempts it schedules after 1000 ms. -/
theorem reconnect_spec_witness :
    reconnect ⟨5⟩ = (⟨5⟩, none) ∧ reconnect ⟨0⟩ = (⟨1⟩, some 1000) :=
  ⟨(reconnect_spec ⟨5⟩).1 (by decide), ((reconnect_spec ⟨0⟩).2).1 (by decide)⟩

/-- C10: `placeNewOrder` with a missing, NaN, zero or negative quantity
logs and returns undefined (`.ok none`: no exception) without invoking
`submitNewOrder` (the Bool is false), for any behaviour of the exchange. -/
theorem placeNewOrder_invalid_quantity (quantity : Option JSNum)
    (submit : Except Unit OrderResponse)
    (h : quantity = none ∨ quantity = some JSNum.nan ∨
      ∃ q, quantity = some (JSNum.num q) ∧ q ≤ 0) :
    placeNewOrder quantity submit = (Except.ok none, false) := by
  rcases h with h | h | ⟨q, h, hq⟩
  · subst h; rfl
  · subst h; rfl
  · subst h
    simp [placeNewOrder, hq]

/-- C10 witness: quantity 0 is rejected without submitting, even when
the exchange would accept the order. -/
theorem placeNewOrder_invalid_quantity_witness :
    placeNewOrder (some (JSNum.num 0))
        (Except.ok (OrderResponse.mk 1 "NEW" 0 0)) =
      (Except.ok none, false) :=
  placeNewOrder_invalid_quantity (some (JSNum.num 0))
    (Except.ok (OrderResponse.mk 1 "NEW" 0 0))
    (Or.inr (Or.inr ⟨0, rfl, le_refl 0⟩))

end Dehedging
